import Mathlib

/-!
Shallow embedding of the wasm-cbuf JavaScript codec (`index.js`): the schema
descriptor data model, the framed-record deserializer, the serialized-size
computation and the serializer, together with theorems checking the
specification's claims about them.

JavaScript values are modelled as follows: numbers holding integers are `Int`,
doubles read or written as IEEE-754 bit patterns are `Nat` (the codec only
moves doubles between buffers and never does arithmetic on them; NaN
canonicalization is not modelled), bigints are `Int`, strings are lists of
Unicode code points, byte buffers are `List Nat` with writes reduced mod 256.
`Map` objects are association lists in insertion order.  Fallible code runs in
`Except CbufError`.  The unbounded mutual recursion of the codec (which in
JavaScript diverges or overflows the stack on cyclic schemas) is made total
with an explicit fuel argument; every recursive call consumes one unit.
-/

namespace WasmCbuf

/-- Little-endian value of a byte list (least significant byte first). -/
def leNat : List Nat → Nat
  | [] => 0
  | b :: rest => b + 256 * leNat rest

/-- The slice `buf[off : off+len]` as a list. -/
def sliceBytes (buf : List Nat) (off len : Nat) : List Nat :=
  (buf.drop off).take len

/-- Reinterpret an unsigned `w`-byte value as two's-complement signed. -/
def toSigned (w n : Nat) : Int :=
  if n < 2 ^ (8 * w - 1) then (n : Int) else (n : Int) - 2 ^ (8 * w)

/-- Low 32 bits of an integer, as the unsigned bit pattern (JS `ToUint32`
of an integral number). -/
def toUint32bits (i : Int) : Nat := (i % ((2 : Int) ^ 32)).toNat

/-- Write `w` bytes of `n` little-endian into `buf` at index `i`
(indices past the end are ignored by `List.set`, but callers bounds-check). -/
def writeLE (buf : List Nat) (i w n : Nat) : List Nat :=
  match w with
  | 0 => buf
  | w' + 1 => writeLE (buf.set i (n % 256)) (i + 1) w' (n / 256)

/-- Write a whole byte list into `buf` starting at index `i`
(models `Uint8Array.prototype.set`; bytes wrap mod 256). -/
def writeBytesAt (buf : List Nat) (i : Nat) : List Nat → List Nat
  | [] => buf
  | b :: rest => writeBytesAt (buf.set i (b % 256)) (i + 1) rest

/-- UTF-8 decoder worker: the counter starts at the list's length and bounds
recursion structurally (it never runs out before the bytes do). -/
def decodeUtf8Aux : Nat → List Nat → List Nat
  | 0, _ => []
  | _ + 1, [] => []
  | n + 1, b :: rest =>
    if b < 0x80 then b :: decodeUtf8Aux n rest
    else if b < 0xC2 then 0xFFFD :: decodeUtf8Aux n rest
    else if b < 0xE0 then
      match rest with
      | [] => [0xFFFD]
      | c :: r2 =>
        if 0x80 ≤ c ∧ c < 0xC0 then ((b - 0xC0) * 64 + (c - 0x80)) :: decodeUtf8Aux n r2
        else 0xFFFD :: decodeUtf8Aux n rest
    else if b < 0xF0 then
      match rest with
      | [] => [0xFFFD]
      | c1 :: r2 =>
        if (if b = 0xE0 then 0xA0 ≤ c1 ∧ c1 < 0xC0
            else if b = 0xED then 0x80 ≤ c1 ∧ c1 < 0xA0
            else 0x80 ≤ c1 ∧ c1 < 0xC0) then
          match r2 with
          | [] => [0xFFFD, 0xFFFD]
          | c2 :: r3 =>
            if 0x80 ≤ c2 ∧ c2 < 0xC0 then
              ((b - 0xE0) * 4096 + (c1 - 0x80) * 64 + (c2 - 0x80)) :: decodeUtf8Aux n r3
            else 0xFFFD :: decodeUtf8Aux n r2
        else 0xFFFD :: decodeUtf8Aux n rest
    else if b < 0xF5 then
      match rest with
      | [] => [0xFFFD]
      | c1 :: r2 =>
        if (if b = 0xF0 then 0x90 ≤ c1 ∧ c1 < 0xC0
            else if b = 0xF4 then 0x80 ≤ c1 ∧ c1 < 0x90
            else 0x80 ≤ c1 ∧ c1 < 0xC0) then
          match r2 with
          | [] => [0xFFFD, 0xFFFD]
          | c2 :: r3 =>
            if 0x80 ≤ c2 ∧ c2 < 0xC0 then
              match r3 with
              | [] => [0xFFFD, 0xFFFD, 0xFFFD]
              | c3 :: r4 =>
                if 0x80 ≤ c3 ∧ c3 < 0xC0 then
                  ((b - 0xF0) * 262144 + (c1 - 0x80) * 4096 + (c2 - 0x80) * 64 +
                      (c3 - 0x80)) :: decodeUtf8Aux n r4
                else 0xFFFD :: decodeUtf8Aux n r3
            else 0xFFFD :: decodeUtf8Aux n r2
        else 0xFFFD :: decodeUtf8Aux n rest
    else 0xFFFD :: decodeUtf8Aux n rest

/-- UTF-8 decoding of a byte list into code points, with the replacement
character U+FFFD for invalid sequences (models `TextDecoder.decode`; the
exact maximal-subpart resumption of WHATWG is followed for the common
shapes; all inputs used by the theorems below are valid sequences). -/
def decodeUtf8 (bs : List Nat) : List Nat :=
  decodeUtf8Aux bs.length bs

/-- UTF-8 encoding of one code point (lone surrogates become U+FFFD's bytes,
as `TextEncoder` does). -/
def encodeCp (cp : Nat) : List Nat :=
  if cp < 0x80 then [cp]
  else if cp < 0x800 then [0xC0 + cp / 64, 0x80 + cp % 64]
  else if 0xD800 ≤ cp ∧ cp < 0xE000 then [0xEF, 0xBF, 0xBD]
  else if cp < 0x10000 then [0xE0 + cp / 4096, 0x80 + (cp / 64) % 64, 0x80 + cp % 64]
  else [0xF0 + cp / 262144, 0x80 + (cp / 4096) % 64, 0x80 + (cp / 64) % 64, 0x80 + cp % 64]

/-- UTF-8 encoding of a code-point string (models `TextEncoder.encode`). -/
def encodeUtf8 (s : List Nat) : List Nat :=
  s.foldr (fun c acc => encodeCp c ++ acc) []

/-- The `.length` of a JS string: UTF-16 code units (astral code points
count twice). -/
def jsStrLength (s : List Nat) : Nat :=
  s.foldr (fun c acc => (if c ≥ 0x10000 then 2 else 1) + acc) 0

/-- Models `str.split("\0").shift()`: the prefix of the string before the first
NUL character. -/
def takeNul (s : List Nat) : List Nat :=
  s.takeWhile (fun c => c != 0)

/-! ## Data model: descriptors, values, errors, views -/

/-- One element of a struct descriptor's `definitions` array
(`MessageDefinitionField` shape as produced by `parseCBufSchema`).
Optional JS properties are `Option`/defaulted `Bool` (the source tests
them with `=== true` or `== undefined`). -/
structure FieldDef where
  name : String
  type : String
  isComplex : Bool := false
  isArray : Bool := false
  arrayLength : Option Nat := none
  arrayUpperBound : Option Nat := none
  upperBound : Option Nat := none
  deriving DecidableEq, Repr

/-- A `CbufMessageDefinition`: name, 64-bit content hash, `@naked` flag and
field list (source line/column are irrelevant to the codec and omitted). -/
structure MsgDef where
  name : String
  hashValue : Nat
  naked : Bool := false
  definitions : List FieldDef
  deriving DecidableEq, Repr

/-- Decoded / to-be-encoded JavaScript values flowing through the codec. -/
inductive CbufValue where
  /-- a JS boolean -/
  | vBool (b : Bool)
  /-- a JS number holding an integer (from the 8/16/32-bit getters) -/
  | vInt (i : Int)
  /-- a JS number obtained from `getFloat32`, as its 32-bit pattern -/
  | vF32 (bits : Nat)
  /-- a JS number obtained from `getFloat64`, as its 64-bit pattern -/
  | vF64 (bits : Nat)
  /-- a JS bigint (from the 64-bit getters) -/
  | vBig (i : Int)
  /-- a JS string, as a list of Unicode code points -/
  | vStr (s : List Nat)
  /-- a typed array (`Uint8Array`, `Float64Array`, ...); `Array.isArray`
  is `false` on these -/
  | vTyped (elems : List CbufValue)
  /-- a plain JS array -/
  | vArr (elems : List CbufValue)
  /-- a plain JS object, as an association list in property order -/
  | vObj (fields : List (String × CbufValue))
  deriving Repr

/-- Typed failures; each constructor corresponds to one `throw` site of the
source (or to a JavaScript runtime exception the source lets escape). -/
inductive CbufError where
  /-- out of fuel: models the stack overflow JS hits on cyclic schemas -/
  | fuelExhausted
  /-- Source text "Invalid offset ... for buffer of length ..." -/
  | invalidOffset (offset len : Nat)
  /-- Source text "Buffer too small to contain cbuf header: ... bytes" -/
  | bufferTooSmall (len : Nat)
  /-- Source text "Invalid cbuf magic 0x..." -/
  | invalidMagic (magic : Nat)
  /-- Source text "cbuf size ... exceeds buffer of length ..." -/
  | sizeExceedsBuffer (size len : Nat)
  /-- Source text "cbuf hash value ... not found in the hash map" -/
  | hashNotFound (hash : Nat)
  /-- Source text "cbuf size ... does not match decoded size ..." -/
  | sizeMismatch (size decoded : Nat)
  /-- Source text "Nested message type ... not found in schema map" -/
  | nestedTypeNotFound (t : String)
  /-- Source text "Unsupported type ..." -/
  | unsupportedType (t : String)
  /-- Source text "Unknown message hash value ..." (serializer side, hash is a bigint) -/
  | unknownMessageHash (hash : Int)
  /-- a RangeError from a DataView / TypedArray constructor or setter -/
  | rangeError
  /-- a TypeError from property access on undefined or a bad coercion -/
  | typeError (msg : String)
  deriving DecidableEq, Repr

/-- A `DataView`: a window `[byteOffset, byteOffset+byteLength)` into an
underlying `ArrayBuffer`. -/
structure DataViewM where
  buffer : List Nat
  byteOffset : Nat
  byteLength : Nat
  deriving Repr

/-- The `data` argument of `deserializeMessage`: an `ArrayBufferView`.
`lengthProp` is the value of `data.length` — present on a `Uint8Array`
(top-level calls), absent (`undefined`) on a `DataView` (nested calls),
where the JS comparison `curOffset >= undefined` is `false`. -/
structure ByteSource where
  buffer : List Nat
  byteOffset : Nat
  byteLength : Nat
  lengthProp : Option Nat
  deriving Repr

/-- View a plain byte list as the `Uint8Array` handed to the public API. -/
def ofBytes (bs : List Nat) : ByteSource :=
  { buffer := bs, byteOffset := 0, byteLength := bs.length, lengthProp := some bs.length }

/-- Models `view.getUintN(o, true)` for `w` bytes, little-endian. -/
def getUintLE (view : DataViewM) (o w : Nat) : Except CbufError Nat :=
  if o + w ≤ view.byteLength then
    .ok (leNat (sliceBytes view.buffer (view.byteOffset + o) w))
  else .error .rangeError

/-- Models `view.getIntN(o, true)`: little-endian signed read. -/
def getIntLE (view : DataViewM) (o w : Nat) : Except CbufError Int :=
  (getUintLE view o w).map (toSigned w)

/-- Models `view.setUintN(o, n, true)`: little-endian write of `w` bytes. -/
def setUintLE (view : DataViewM) (o w n : Nat) : Except CbufError DataViewM :=
  if o + w ≤ view.byteLength then
    .ok { view with buffer := writeLE view.buffer (view.byteOffset + o) w n }
  else .error .rangeError

/-- Signed little-endian write: the value is reduced to its `w`-byte
two's-complement pattern, as the JS `ToIntN`/`ToBigIntN` coercions do. -/
def setIntLE (view : DataViewM) (o w : Nat) (i : Int) : Except CbufError DataViewM :=
  setUintLE view o w ((i % ((2 : Int) ^ (8 * w))).toNat)

/-- Models `new Uint8Array(view.buffer, byteOffset, window).set(bytes)`: write
`bytes` into the window, failing like JS when the window leaves the buffer
or the source is longer than the window.  Bytes of the window past
`bytes.length` keep their previous contents. -/
def setWindowBytes (view : DataViewM) (byteOffset window : Nat) (bytes : List Nat) :
    Except CbufError DataViewM :=
  if byteOffset + window ≤ view.buffer.length then
    if bytes.length ≤ window then
      .ok { view with buffer := writeBytesAt view.buffer byteOffset bytes }
    else .error .rangeError
  else .error .rangeError

/-- Models `Map.get`: first (only) entry with the given key. -/
def mapGet {α β : Type} [BEq α] (m : List (α × β)) (k : α) : Option β :=
  (m.find? (fun p => p.1 == k)).map (fun p => p.2)

/-- Models `Map.set`: replace the value at an existing key in place, else append. -/
def mapSet {α β : Type} [BEq α] (m : List (α × β)) (k : α) (v : β) : List (α × β) :=
  match m with
  | [] => [(k, v)]
  | (k', v') :: rest => if k' == k then (k, v) :: rest else (k', v') :: mapSet rest k v

/-- A schema map: fully qualified struct name → descriptor, insertion order. -/
abbrev SchemaMap := List (String × MsgDef)

/-- A hash map: 64-bit hash → descriptor, insertion order. -/
abbrev HashMap := List (Nat × MsgDef)

/-- The bootstrapped `cbufmsg::metadata` descriptor (`METADATA_DEFINITION`). -/
def METADATA_DEFINITION : MsgDef :=
  { name := "cbufmsg::metadata"
    hashValue := 0xbe6738d544ab72c6
    naked := false
    definitions :=
      [ { name := "msg_hash", type := "uint64" }
      , { name := "msg_name", type := "string" }
      , { name := "msg_meta", type := "string" } ] }

/-- The constant `HEADER_SIZE = 4 + 4 + 8 + 8`. -/
def HEADER_SIZE : Nat := 4 + 4 + 8 + 8

/-- Decode the element values of a numeric typed array built over
`buf[bo : bo + width*count]` (both the aligned zero-copy path and the
unaligned copying path of `typedArray` yield these element values, and
both throw a RangeError on the same bounds condition). -/
def typedArrayElems (mk : Nat → CbufValue) (buf : List Nat) (bo width count : Nat) :
    Except CbufError CbufValue :=
  if bo + width * count ≤ buf.length then
    .ok (.vTyped (((List.range count).map
      (fun i => mk (leNat (sliceBytes buf (bo + i * width) width))))))
  else .error .rangeError

/-- The record shape shared by `deserializeMessage`'s result and
`serializeMessage`'s argument.  `variant` is `none` when the property is
absent (`message.variant != undefined` is false); deserialization always
sets it (to `0` for records without the variant bit).  `timestamp` is the
64-bit pattern of the double. -/
structure CbufMessage where
  typeName : String := ""
  size : Nat := 0
  variant : Option Int := none
  hashValue : Int := 0
  timestamp : Nat := 0
  message : List (String × CbufValue) := []
  deriving Repr

/-! ## Deserializer -/

/-- Models `readBasicType(view, offset, message, field)`: reads one scalar of a
basic type; returns the bytes consumed and the value the source stores in
`message[field.name]`. -/
def readBasicType (view : DataViewM) (offset : Nat) (field : FieldDef) :
    Except CbufError (Nat × CbufValue) :=
  match field.type with
  | "bool" => do
    let n ← getUintLE view offset 1
    pure (1, .vBool (n ≠ 0))
  | "int8" => do
    let i ← getIntLE view offset 1
    pure (1, .vInt i)
  | "uint8" => do
    let n ← getUintLE view offset 1
    pure (1, .vInt n)
  | "int16" => do
    let i ← getIntLE view offset 2
    pure (2, .vInt i)
  | "uint16" => do
    let n ← getUintLE view offset 2
    pure (2, .vInt n)
  | "int32" => do
    let i ← getIntLE view offset 4
    pure (4, .vInt i)
  | "uint32" => do
    let n ← getUintLE view offset 4
    pure (4, .vInt n)
  | "int64" => do
    let n ← getUintLE view offset 8
    pure (8, .vBig (toSigned 8 n))
  | "uint64" => do
    let n ← getUintLE view offset 8
    pure (8, .vBig n)
  | "float32" => do
    let n ← getUintLE view offset 4
    pure (4, .vF32 n)
  | "float64" => do
    let n ← getUintLE view offset 8
    pure (8, .vF64 n)
  | "string" => do
    -- `length = field.upperBound`; when undefined, a uint32 length prefix
    let (curOffset, length) ← (match field.upperBound with
      | some ub => pure (0, ub)
      | none => do
        let n ← getUintLE view offset 4
        pure (4, n))
    -- bytes = new Uint8Array(view.buffer, view.byteOffset + offset + curOffset, length)
    if view.byteOffset + offset + curOffset + length ≤ view.buffer.length then
      let bytes := sliceBytes view.buffer (view.byteOffset + offset + curOffset) length
      -- message[field.name] = textDecoder.decode(bytes).split("\0").shift()
      pure (curOffset + length, .vStr (takeNul (decodeUtf8 bytes)))
    else throw .rangeError
  | t => throw (.unsupportedType t)

mutual

/-- Models `deserializeMessage(schemaMap, hashMap, data, offset)`: decode one framed
record — header (magic, size/variant word, hash, timestamp) then the naked
payload against the descriptor selected by hash. -/
def deserializeMessage : Nat → SchemaMap → HashMap → ByteSource → Nat →
    Except CbufError CbufMessage
  | 0, _, _, _, _ => .error .fuelExhausted
  | fuel + 1, schemaMap, hashMap, data, offset => do
    let curOffset := offset
    -- JS: `if (curOffset < 0 || curOffset >= data.length) throw`.  The first
    -- disjunct is vacuous for Nat offsets; `data.length` is undefined when a
    -- DataView is passed (nested records), making the comparison false.
    (match data.lengthProp with
      | some len => if curOffset ≥ len then throw (.invalidOffset curOffset len) else pure ()
      | none => pure ())
    -- new DataView(data.buffer, data.byteOffset + curOffset, data.byteLength - curOffset)
    -- throws a RangeError when the length would be negative.
    if curOffset > data.byteLength then throw .rangeError
    let view : DataViewM :=
      { buffer := data.buffer, byteOffset := data.byteOffset + curOffset,
        byteLength := data.byteLength - curOffset }
    if view.byteLength < 24 then throw (.bufferTooSmall view.byteLength)
    let magic ← getUintLE view 0 4
    if magic ≠ 0x56444e54 then throw (.invalidMagic magic)
    let sizeAndVariant ← getUintLE view 4 4
    let hasVariant := Nat.testBit sizeAndVariant 31
    let size := if hasVariant then sizeAndVariant &&& 0x07ffffff
                else sizeAndVariant &&& 0x7fffffff
    let variant : Nat := if hasVariant then (sizeAndVariant >>> 27) &&& 0x0f else 0
    if size > view.byteLength then throw (.sizeExceedsBuffer size view.byteLength)
    let hashValue ← getUintLE view 8 8
    let timestamp ← getUintLE view 16 8
    -- `hashValue === METADATA_DEFINITION.hashValue ? METADATA_DEFINITION
    --  : hashMap.get(hashValue)`
    let msgdef ← (match (if hashValue = METADATA_DEFINITION.hashValue
        then some METADATA_DEFINITION else mapGet hashMap hashValue) with
      | some d => pure d
      | none => throw (.hashNotFound hashValue))
    let (consumed, message) ← deserializeNakedMessage fuel schemaMap hashMap msgdef view 24
    let endOffset := 24 + consumed
    if endOffset ≠ size then throw (.sizeMismatch size endOffset)
    pure { typeName := msgdef.name, size := size, variant := some (variant : Int),
           hashValue := (hashValue : Int), timestamp := timestamp, message := message }
termination_by structural fuel _ _ _ _ => fuel

/-- Models `deserializeNakedMessage(schemaMap, hashMap, msgdef, view, offset, output)`:
decode the fields of a naked struct in order; returns the bytes consumed and
the output object's properties. -/
def deserializeNakedMessage : Nat → SchemaMap → HashMap → MsgDef → DataViewM → Nat →
    Except CbufError (Nat × List (String × CbufValue))
  | 0, _, _, _, _, _ => .error .fuelExhausted
  | fuel + 1, schemaMap, hashMap, msgdef, view, offset =>
    desFields fuel schemaMap hashMap msgdef.definitions view offset 0 []
termination_by structural fuel _ _ _ _ _ => fuel

/-- The field loop of `deserializeNakedMessage`: threads `innerOffset` and the
`output` object through the remaining fields. -/
def desFields : Nat → SchemaMap → HashMap → List FieldDef → DataViewM → Nat → Nat →
    List (String × CbufValue) → Except CbufError (Nat × List (String × CbufValue))
  | 0, _, _, _, _, _, _, _ => .error .fuelExhausted
  | _ + 1, _, _, [], _, _, innerOffset, output => .ok (innerOffset, output)
  | fuel + 1, schemaMap, hashMap, field :: rest, view, offset, innerOffset, output => do
    let (innerOffset', value) ← desField fuel schemaMap hashMap field view offset innerOffset
    desFields fuel schemaMap hashMap rest view offset innerOffset'
      (mapSet output field.name value)
termination_by structural fuel _ _ _ _ _ _ _ => fuel

/-- One iteration of the field loop: the array and non-array branches of
`deserializeNakedMessage`.  Returns the new `innerOffset` and the value
stored in `output[field.name]`. -/
def desField : Nat → SchemaMap → HashMap → FieldDef → DataViewM → Nat → Nat →
    Except CbufError (Nat × CbufValue)
  | 0, _, _, _, _, _, _ => .error .fuelExhausted
  | fuel + 1, schemaMap, hashMap, field, view, offset, innerOffset => do
    if field.isArray = true then do
      -- `arrayLength = field.arrayLength`, else a uint32 count prefix
      let (innerOffset, arrayLength) ← (match field.arrayLength with
        | some n => pure (innerOffset, n)
        | none => do
          let n ← getUintLE view (offset + innerOffset) 4
          pure (innerOffset + 4, n))
      let bufferOffset := view.byteOffset + offset + innerOffset
      match field.type with
      | "bool" => do
        let v ← typedArrayElems (fun n => .vInt n) view.buffer bufferOffset 1 arrayLength
        pure (innerOffset + arrayLength, v)
      | "uint8" => do
        let v ← typedArrayElems (fun n => .vInt n) view.buffer bufferOffset 1 arrayLength
        pure (innerOffset + arrayLength, v)
      | "int8" => do
        let v ← typedArrayElems (fun n => .vInt (toSigned 1 n)) view.buffer bufferOffset 1
          arrayLength
        pure (innerOffset + arrayLength, v)
      | "uint16" => do
        let v ← typedArrayElems (fun n => .vInt n) view.buffer bufferOffset 2 arrayLength
        pure (innerOffset + arrayLength * 2, v)
      | "int16" => do
        let v ← typedArrayElems (fun n => .vInt (toSigned 2 n)) view.buffer bufferOffset 2
          arrayLength
        pure (innerOffset + arrayLength * 2, v)
      | "uint32" => do
        let v ← typedArrayElems (fun n => .vInt n) view.buffer bufferOffset 4 arrayLength
        pure (innerOffset + arrayLength * 4, v)
      | "int32" => do
        let v ← typedArrayElems (fun n => .vInt (toSigned 4 n)) view.buffer bufferOffset 4
          arrayLength
        pure (innerOffset + arrayLength * 4, v)
      | "uint64" => do
        let v ← typedArrayElems (fun n => .vBig n) view.buffer bufferOffset 8 arrayLength
        pure (innerOffset + arrayLength * 8, v)
      | "int64" => do
        let v ← typedArrayElems (fun n => .vBig (toSigned 8 n)) view.buffer bufferOffset 8
          arrayLength
        pure (innerOffset + arrayLength * 8, v)
      | "float32" => do
        let v ← typedArrayElems (fun n => .vF32 n) view.buffer bufferOffset 4 arrayLength
        pure (innerOffset + arrayLength * 4, v)
      | "float64" => do
        let v ← typedArrayElems (fun n => .vF64 n) view.buffer bufferOffset 8 arrayLength
        pure (innerOffset + arrayLength * 8, v)
      | _ =>
        -- string array or nested struct array: read elements one at a time
        desArrayItems fuel schemaMap hashMap field view offset innerOffset arrayLength []
    else do
      let (consumed, value) ← readNonArrayField fuel schemaMap hashMap field view
        (offset + innerOffset)
      pure (innerOffset + consumed, value)
termination_by structural fuel _ _ _ _ _ _ => fuel

/-- The per-element loop of the string/struct array branch: reads `remaining`
further elements, pushing each onto `acc`. -/
def desArrayItems : Nat → SchemaMap → HashMap → FieldDef → DataViewM → Nat → Nat → Nat →
    List CbufValue → Except CbufError (Nat × CbufValue)
  | 0, _, _, _, _, _, _, _, _ => .error .fuelExhausted
  | _ + 1, _, _, _, _, _, innerOffset, 0, acc => .ok (innerOffset, .vArr acc)
  | fuel + 1, schemaMap, hashMap, field, view, offset, innerOffset, remaining + 1, acc => do
    let (consumed, value) ← readNonArrayField fuel schemaMap hashMap field view
      (offset + innerOffset)
    desArrayItems fuel schemaMap hashMap field view offset (innerOffset + consumed) remaining
      (acc ++ [value])
termination_by structural fuel _ _ _ _ _ _ _ _ => fuel

/-- Models `readNonArrayField(schemaMap, hashMap, field, view, offset, output)`:
returns bytes consumed and the value stored in `output[field.name]`. -/
def readNonArrayField : Nat → SchemaMap → HashMap → FieldDef → DataViewM → Nat →
    Except CbufError (Nat × CbufValue)
  | 0, _, _, _, _, _ => .error .fuelExhausted
  | fuel + 1, schemaMap, hashMap, field, view, offset => do
    if field.isComplex = true then do
      let nestedMsgdef ← (match mapGet schemaMap field.type with
        | some d => pure d
        | none => throw (.nestedTypeNotFound field.type))
      if nestedMsgdef.naked = true then do
        -- nested naked struct: no header, decode in place
        let (consumed, nested) ← deserializeNakedMessage fuel schemaMap hashMap nestedMsgdef
          view offset
        pure (consumed, .vObj nested)
      else do
        -- nested non-naked struct: the DataView itself is passed as `data`
        -- (its `.length` property is undefined); only `message` is surfaced
        let nested ← deserializeMessage fuel schemaMap hashMap
          { buffer := view.buffer, byteOffset := view.byteOffset,
            byteLength := view.byteLength, lengthProp := none } offset
        pure (nested.size, .vObj nested.message)
    else
      readBasicType view offset field
termination_by structural fuel _ _ _ _ _ => fuel

end

/-! ## Serialized size -/

/-- Models `message[field.name]` where `message` is an arbitrary JS value: property
access on `undefined` throws a TypeError; on an object it returns the
property (or `undefined`); on primitives and arrays the descriptor field
names are not own properties, so it returns `undefined` (built-in
properties such as `.length` are not field names and are not modelled). -/
def getPropJs (message : Option CbufValue) (name : String) :
    Except CbufError (Option CbufValue) :=
  match message with
  | none => .error (.typeError "Cannot read properties of undefined")
  | some (.vObj fields) => .ok (mapGet fields name)
  | some _ => .ok none

/-- Models `Array.isArray(value) ? value.length : 0` (note: `Array.isArray` is
`false` on typed arrays, so a decoded numeric array counts as length 0). -/
def jsArrayLength (value : Option CbufValue) : Nat :=
  match value with
  | some (.vArr elems) => elems.length
  | _ => 0

/-- Models `for (const element of value)`: `undefined` and non-iterables throw a
TypeError; arrays and typed arrays yield their elements; a string yields
its characters as one-character strings. -/
def jsIterate (value : Option CbufValue) : Except CbufError (List CbufValue) :=
  match value with
  | none => .error (.typeError "undefined is not iterable")
  | some (.vArr elems) => .ok elems
  | some (.vTyped elems) => .ok elems
  | some (.vStr s) => .ok (s.map (fun c => .vStr [c]))
  | some _ => .error (.typeError "value is not iterable")

/-- Models the source's buggy recursive call
`serializedNakedMessageSize(schemaMap, hashMap, element)` in the
string/struct-array branch of the sizer: `element` arrives in the `msgdef`
parameter and `message` is `undefined`.  The loop `for (const field of
msgdef.definitions)` then throws a TypeError unless `element.definitions`
is an empty iterable (in which case the size contribution is 0): with one
or more iterations, `message[field.name]` reads a property of `undefined`. -/
def bogusElementSize (element : CbufValue) : Except CbufError Nat :=
  match element with
  | .vObj fields =>
    match mapGet fields "definitions" with
    | some (.vArr []) => .ok 0
    | some (.vTyped []) => .ok 0
    | some (.vStr []) => .ok 0
    | some (.vArr (_ :: _)) => .error (.typeError "Cannot read properties of undefined")
    | some (.vTyped (_ :: _)) => .error (.typeError "Cannot read properties of undefined")
    | some (.vStr (_ :: _)) => .error (.typeError "Cannot read properties of undefined")
    | _ => .error (.typeError "definitions is not iterable")
  | _ => .error (.typeError "definitions is not iterable")

/-- The element loop of the sizer's string/struct-array branch. -/
def sizeArrayElems : List CbufValue → Nat → Except CbufError Nat
  | [], size => .ok size
  | element :: rest, size => do
    let n ← bogusElementSize element
    sizeArrayElems rest (size + n)

/-- Models `hashMap.get(h)` for a bigint key. -/
def hashMapGet (hashMap : HashMap) (h : Int) : Option MsgDef :=
  (hashMap.find? (fun p => (p.1 : Int) == h)).map (fun p => p.2)

mutual

/-- Models `serializedNakedMessageSize(schemaMap, hashMap, msgdef, message)`. -/
def serializedNakedMessageSize : Nat → SchemaMap → HashMap → MsgDef → Option CbufValue →
    Except CbufError Nat
  | 0, _, _, _, _ => .error .fuelExhausted
  | fuel + 1, schemaMap, hashMap, msgdef, message =>
    sizeFields fuel schemaMap hashMap msgdef.definitions message 0

/-- The field loop of `serializedNakedMessageSize`, threading `size`. -/
def sizeFields : Nat → SchemaMap → HashMap → List FieldDef → Option CbufValue → Nat →
    Except CbufError Nat
  | 0, _, _, _, _, _ => .error .fuelExhausted
  | _ + 1, _, _, [], _, size => .ok size
  | fuel + 1, schemaMap, hashMap, field :: rest, message, size => do
    let value ← getPropJs message field.name
    if field.isArray = true then do
      let (size, arrayLength) := (match field.arrayLength with
        | some n => (size, n)
        | none => (size + 4, jsArrayLength value))
      match field.type with
      | "bool" => sizeFields fuel schemaMap hashMap rest message (size + arrayLength)
      | "uint8" => sizeFields fuel schemaMap hashMap rest message (size + arrayLength)
      | "int8" => sizeFields fuel schemaMap hashMap rest message (size + arrayLength)
      | "uint16" => sizeFields fuel schemaMap hashMap rest message (size + arrayLength * 2)
      | "int16" => sizeFields fuel schemaMap hashMap rest message (size + arrayLength * 2)
      | "uint32" => sizeFields fuel schemaMap hashMap rest message (size + arrayLength * 4)
      | "int32" => sizeFields fuel schemaMap hashMap rest message (size + arrayLength * 4)
      | "float32" => sizeFields fuel schemaMap hashMap rest message (size + arrayLength * 4)
      | "uint64" => sizeFields fuel schemaMap hashMap rest message (size + arrayLength * 8)
      | "int64" => sizeFields fuel schemaMap hashMap rest message (size + arrayLength * 8)
      | "float64" => sizeFields fuel schemaMap hashMap rest message (size + arrayLength * 8)
      | _ => do
        -- string array or nested struct array: per-element recursion, but the
        -- source drops the element argument (see `bogusElementSize`)
        let elems ← jsIterate value
        let size ← sizeArrayElems elems size
        sizeFields fuel schemaMap hashMap rest message size
    else
      if field.isComplex = true then do
        let nestedMsgdef ← (match mapGet schemaMap field.type with
          | some d => pure d
          | none => throw (.nestedTypeNotFound field.type))
        let size := if nestedMsgdef.naked ≠ true then size + HEADER_SIZE else size
        let nestedSize ← serializedNakedMessageSize fuel schemaMap hashMap nestedMsgdef value
        sizeFields fuel schemaMap hashMap rest message (size + nestedSize)
      else
        match field.type with
        | "bool" => sizeFields fuel schemaMap hashMap rest message (size + 1)
        | "uint8" => sizeFields fuel schemaMap hashMap rest message (size + 1)
        | "int8" => sizeFields fuel schemaMap hashMap rest message (size + 1)
        | "uint16" => sizeFields fuel schemaMap hashMap rest message (size + 2)
        | "int16" => sizeFields fuel schemaMap hashMap rest message (size + 2)
        | "uint32" => sizeFields fuel schemaMap hashMap rest message (size + 4)
        | "int32" => sizeFields fuel schemaMap hashMap rest message (size + 4)
        | "float32" => sizeFields fuel schemaMap hashMap rest message (size + 4)
        | "uint64" => sizeFields fuel schemaMap hashMap rest message (size + 8)
        | "int64" => sizeFields fuel schemaMap hashMap rest message (size + 8)
        | "float64" => sizeFields fuel schemaMap hashMap rest message (size + 8)
        | "string" => do
          -- `length = field.upperBound`; when undefined, 4 + value.length
          -- (the string's UTF-16 length, not its UTF-8 byte count)
          let (size, length) := (match field.upperBound with
            | some ub => (size, ub)
            | none => (size + 4, match value with
              | some (.vStr s) => jsStrLength s
              | _ => 0))
          sizeFields fuel schemaMap hashMap rest message (size + length)
        | t => throw (.unsupportedType t)
termination_by structural fuel _ _ _ _ _ => fuel

end

/-- Models `serializedMessageSize(schemaMap, hashMap, message)`: header plus naked
payload size.  The source's `typeof` guards on `hashValue` (bigint) and
`message` (object) always pass in this typed model. -/
def serializedMessageSize (fuel : Nat) (schemaMap : SchemaMap) (hashMap : HashMap)
    (message : CbufMessage) : Except CbufError Nat := do
  let msgdef ← (match (if message.hashValue = (METADATA_DEFINITION.hashValue : Int)
      then some METADATA_DEFINITION else hashMapGet hashMap message.hashValue) with
    | some d => pure d
    | none => throw (.unknownMessageHash message.hashValue))
  let nakedSize ← serializedNakedMessageSize fuel schemaMap hashMap msgdef
    (some (.vObj message.message))
  pure (HEADER_SIZE + nakedSize)

/-! ## Serializer -/

/-- JS `ToNumber` then integer truncation, as the 8/16/32-bit DataView
setters apply to their value argument: `undefined` becomes NaN and then 0,
booleans 0/1, bigints throw.  Doubles (modelled as bit patterns), strings
and objects truncate through values this model does not track; they are
mapped to 0 (the codec's own round-trip paths never hit these cases:
decoded integer fields are re-serialized from `vInt`/`vBool` values). -/
def coerceIntWrite : Option CbufValue → Except CbufError Int
  | none => .ok 0
  | some (.vBool b) => .ok (if b then 1 else 0)
  | some (.vInt i) => .ok i
  | some (.vBig _) => .error (.typeError "Cannot convert a BigInt to a number")
  | some _ => .ok 0

/-- JS `ToBigInt` as the 64-bit setters apply it: bigints pass, booleans
convert, `undefined` and numbers throw TypeErrors.  (Strings holding
numeric text would convert in JS; that case is not modelled and mapped to
the string TypeError.) -/
def coerceBigWrite : Option CbufValue → Except CbufError Int
  | some (.vBig i) => .ok i
  | some (.vBool b) => .ok (if b then 1 else 0)
  | none => .error (.typeError "Cannot convert undefined to a BigInt")
  | some _ => .error (.typeError "Cannot convert value to a BigInt")

/-- Bit pattern of the canonical f32 NaN written for `undefined` values. -/
def f32NaNbits : Nat := 0x7FC00000

/-- Bit pattern of the canonical f64 NaN written for `undefined` values. -/
def f64NaNbits : Nat := 0x7FF8000000000000

/-- Value argument of `setFloat32`: `undefined` writes NaN, a float32 bit
pattern round-trips, bigints throw; other numerics would convert through
double arithmetic this model does not track (mapped to 0, unreachable on
the codec's round-trip paths). -/
def coerceF32Write : Option CbufValue → Except CbufError Nat
  | none => .ok f32NaNbits
  | some (.vF32 bits) => .ok bits
  | some (.vBig _) => .error (.typeError "Cannot convert a BigInt to a number")
  | some _ => .ok 0

/-- Value argument of `setFloat64`; see `coerceF32Write`. -/
def coerceF64Write : Option CbufValue → Except CbufError Nat
  | none => .ok f64NaNbits
  | some (.vF64 bits) => .ok bits
  | some (.vBig _) => .error (.typeError "Cannot convert a BigInt to a number")
  | some _ => .ok 0

/-- f32 NaN test on a bit pattern. -/
def isNaN32 (bits : Nat) : Bool :=
  ((bits >>> 23) &&& 0xFF) == 0xFF && (bits &&& 0x7FFFFF) != 0

/-- f64 NaN test on a bit pattern. -/
def isNaN64 (bits : Nat) : Bool :=
  ((bits >>> 52) &&& 0x7FF) == 0x7FF && (bits &&& 0xFFFFFFFFFFFFF) != 0

/-- JS truthiness of a value (falsy: `false`, 0, -0, NaN, the empty
string, 0n). -/
def jsTruthy : CbufValue → Bool
  | .vBool b => b
  | .vInt i => i != 0
  | .vF32 bits => !(bits == 0 || bits == 0x80000000 || isNaN32 bits)
  | .vF64 bits => !(bits == 0 || bits == 0x8000000000000000 || isNaN64 bits)
  | .vBig i => i != 0
  | .vStr s => !s.isEmpty
  | .vTyped _ => true
  | .vArr _ => true
  | .vObj _ => true

/-- Models `value[i]`: indexing `undefined` throws; arrays and typed arrays yield
the element or `undefined` past the end; a string yields a one-character
string; other primitives and objects yield `undefined`. -/
def jsIndex (value : Option CbufValue) (i : Nat) : Except CbufError (Option CbufValue) :=
  match value with
  | none => .error (.typeError "Cannot read properties of undefined")
  | some (.vArr elems) => .ok (elems.get? i)
  | some (.vTyped elems) => .ok (elems.get? i)
  | some (.vStr s) => .ok ((s.get? i).map (fun c => .vStr [c]))
  | some _ => .ok none

/-- The non-complex branch of `serializeNonArrayField`: the switch over the
basic type tokens (the source inlines this switch in the same function; it
is factored out here because it makes no recursive call).  Returns the
updated view and the bytes accounted to the field. -/
def writeBasicField (field : FieldDef) (value : Option CbufValue) (view : DataViewM)
    (curOffset : Nat) : Except CbufError (DataViewM × Nat) :=
  match field.type with
  | "bool" => do
    let i ← coerceIntWrite value
    let view ← setIntLE view curOffset 1 i
    pure (view, 1)
  | "uint8" => do
    let i ← coerceIntWrite value
    let view ← setIntLE view curOffset 1 i
    pure (view, 1)
  | "int8" => do
    let i ← coerceIntWrite value
    let view ← setIntLE view curOffset 1 i
    pure (view, 1)
  | "uint16" => do
    let i ← coerceIntWrite value
    let view ← setIntLE view curOffset 2 i
    pure (view, 2)
  | "int16" => do
    let i ← coerceIntWrite value
    let view ← setIntLE view curOffset 2 i
    pure (view, 2)
  | "uint32" => do
    let i ← coerceIntWrite value
    let view ← setIntLE view curOffset 4 i
    pure (view, 4)
  | "int32" => do
    let i ← coerceIntWrite value
    let view ← setIntLE view curOffset 4 i
    pure (view, 4)
  | "float32" => do
    let bits ← coerceF32Write value
    let view ← setUintLE view curOffset 4 bits
    pure (view, 4)
  | "uint64" => do
    let i ← coerceBigWrite value
    let view ← setIntLE view curOffset 8 i
    pure (view, 8)
  | "int64" => do
    let i ← coerceBigWrite value
    let view ← setIntLE view curOffset 8 i
    pure (view, 8)
  | "float64" => do
    let bits ← coerceF64Write value
    let view ← setUintLE view curOffset 8 bits
    pure (view, 8)
  | "string" => do
    let (view, innerOffset, length) ← (match field.upperBound with
      | some ub => pure (view, 0, ub)
      | none => do
        let length := (match value with
          | some (.vStr s) => jsStrLength s
          | _ => 0)
        let view ← setUintLE view curOffset 4 length
        pure (view, 4, length))
    let view ← (match value with
      | none => pure view
      | some v =>
        if jsTruthy v then
          match v with
          | .vStr s =>
            setWindowBytes view (view.byteOffset + curOffset + innerOffset) length
              (encodeUtf8 s)
          | _ => throw (.typeError "TextEncoder.encode of a non-string is not modelled")
        else pure view)
    pure (view, innerOffset + length)
  | t => throw (.unsupportedType t)

mutual

/-- Models `serializeNakedMessage(schemaMap, hashMap, msgdef, message, view, offset)`:
returns the updated view and the number of bytes written. -/
def serializeNakedMessage : Nat → SchemaMap → HashMap → MsgDef → Option CbufValue →
    DataViewM → Nat → Except CbufError (DataViewM × Nat)
  | 0, _, _, _, _, _, _ => .error .fuelExhausted
  | fuel + 1, schemaMap, hashMap, msgdef, message, view, offset =>
    serFields fuel schemaMap hashMap msgdef.definitions message view offset 0
termination_by structural fuel _ _ _ _ _ _ => fuel

/-- The field loop of `serializeNakedMessage`. -/
def serFields : Nat → SchemaMap → HashMap → List FieldDef → Option CbufValue → DataViewM →
    Nat → Nat → Except CbufError (DataViewM × Nat)
  | 0, _, _, _, _, _, _, _ => .error .fuelExhausted
  | _ + 1, _, _, [], _, view, _, innerOffset => .ok (view, innerOffset)
  | fuel + 1, schemaMap, hashMap, field :: rest, message, view, offset, innerOffset => do
    let value ← getPropJs message field.name
    if field.isArray = true then do
      let (view, innerOffset, arrayLength) ← (match field.arrayLength with
        | some n => pure (view, innerOffset, n)
        | none => do
          let n := jsArrayLength value
          let view ← setUintLE view (offset + innerOffset) 4 n
          pure (view, innerOffset + 4, n))
      let (view, innerOffset) ← serArrayItems fuel schemaMap hashMap field value view offset
        innerOffset 0 arrayLength
      serFields fuel schemaMap hashMap rest message view offset innerOffset
    else do
      let (view, written) ← serializeNonArrayField fuel schemaMap hashMap field value view
        (offset + innerOffset)
      serFields fuel schemaMap hashMap rest message view offset (innerOffset + written)
termination_by structural fuel _ _ _ _ _ _ _ => fuel

/-- The `for (let i = 0; i < arrayLength; i++)` loop: serializes `value[i]`
for the `remaining` indices starting at `i`. -/
def serArrayItems : Nat → SchemaMap → HashMap → FieldDef → Option CbufValue → DataViewM →
    Nat → Nat → Nat → Nat → Except CbufError (DataViewM × Nat)
  | 0, _, _, _, _, _, _, _, _, _ => .error .fuelExhausted
  | _ + 1, _, _, _, _, view, _, innerOffset, _, 0 => .ok (view, innerOffset)
  | fuel + 1, schemaMap, hashMap, field, value, view, offset, innerOffset, i, remaining + 1 => do
    let elem ← jsIndex value i
    let (view, written) ← serializeNonArrayField fuel schemaMap hashMap field elem view
      (offset + innerOffset)
    serArrayItems fuel schemaMap hashMap field value view offset (innerOffset + written)
      (i + 1) remaining
termination_by structural fuel _ _ _ _ _ _ _ _ _ => fuel

/-- Models `serializeNonArrayField(schemaMap, hashMap, field, value, view, curOffset)`:
returns the updated view and the bytes accounted to this field. -/
def serializeNonArrayField : Nat → SchemaMap → HashMap → FieldDef → Option CbufValue →
    DataViewM → Nat → Except CbufError (DataViewM × Nat)
  | 0, _, _, _, _, _, _ => .error .fuelExhausted
  | fuel + 1, schemaMap, hashMap, field, value, view, curOffset => do
    if field.isComplex = true then do
      let nestedMsgdef ← (match mapGet schemaMap field.type with
        | some d => pure d
        | none => throw (.nestedTypeNotFound field.type))
      let (view, innerOffset) ← (if nestedMsgdef.naked ≠ true then do
          let nestedSize ← serializedNakedMessageSize (fuel + 1) schemaMap hashMap
            nestedMsgdef value
          let view ← setUintLE view (curOffset + 0) 4 0x56444e54
          let view ← setUintLE view (curOffset + 4) 4 (HEADER_SIZE + nestedSize)
          -- setBigUint64(nestedMsgdef.hashValue): already a 64-bit Nat
          let view ← setUintLE view (curOffset + 8) 8 nestedMsgdef.hashValue
          -- setFloat64(0.0): the double 0.0 has bit pattern 0
          let view ← setUintLE view (curOffset + 16) 8 0
          pure (view, 24)
        else
          pure (view, 0))
      -- Faithful to the source: the nested payload is written at `curOffset`,
      -- NOT `curOffset + innerOffset`, so in the non-naked case it overwrites
      -- the header that was just written.
      let (view, written) ← serializeNakedMessage fuel schemaMap hashMap nestedMsgdef value
        view curOffset
      pure (view, innerOffset + written)
    else
      writeBasicField field value view curOffset
termination_by structural fuel _ _ _ _ _ _ => fuel

end

/-- Models `serializeMessage(schemaMap, hashMap, message)`: allocate a buffer of the
computed total size, write the header and the naked payload, return the
buffer. -/
def serializeMessage (fuel : Nat) (schemaMap : SchemaMap) (hashMap : HashMap)
    (message : CbufMessage) : Except CbufError (List Nat) := do
  let msgdef ← (match (if message.hashValue = (METADATA_DEFINITION.hashValue : Int)
      then some METADATA_DEFINITION else hashMapGet hashMap message.hashValue) with
    | some d => pure d
    | none => throw (.unknownMessageHash message.hashValue))
  let size ← serializedMessageSize fuel schemaMap hashMap message
  let view : DataViewM :=
    { buffer := List.replicate size 0, byteOffset := 0, byteLength := size }
  -- CBUF_MAGIC
  let view ← setUintLE view 0 4 0x56444e54
  -- size and variant: (hasVariant ? message.variant << 27 : 0) | size,
  -- 32-bit bitwise operations on the patterns, then ToUint32 by setUint32
  let hasVariant := message.variant.isSome
  let sizeAndVariant : Nat :=
    Nat.lor (if hasVariant then toUint32bits (message.variant.getD 0 * 2 ^ 27) else 0)
      (size % 2 ^ 32)
  let view ← setUintLE view 4 4 sizeAndVariant
  -- hashValue (setBigUint64 applies ToBigUint64, i.e. mod 2^64)
  let view ← setIntLE view 8 8 message.hashValue
  -- timestamp (setFloat64 of the double's bit pattern)
  let view ← setUintLE view 16 8 message.timestamp
  -- message data
  let (view, _written) ← serializeNakedMessage fuel schemaMap hashMap msgdef
    (some (.vObj message.message)) view 24
  pure view.buffer

/-- Models `schemaMapToHashMap(schemaMap)`: iterate the schema map's values in
insertion order, inserting `hashValue → definition`. -/
def schemaMapToHashMap (schemaMap : SchemaMap) : HashMap :=
  schemaMap.foldl (fun hashMap p => mapSet hashMap p.2.hashValue p.2) []

/-! ## Concrete fixtures used by the claim theorems -/

/-- Little-endian bytes of a `w`-byte value (for stating expected buffers). -/
def leBytes : Nat → Nat → List Nat
  | 0, _ => []
  | w + 1, n => n % 256 :: leBytes w (n / 256)

/-- A non-naked struct with a single scalar field of type `t`. -/
def scalarStructDef (t : String) : MsgDef :=
  { name := "m", hashValue := 1, definitions := [{ name := "x", type := t }] }

/-- A compact `uint8` array field (`arrayUpperBound`, no `arrayLength`). -/
def compactU8Field (nm : String) (bound : Nat) : FieldDef :=
  { name := nm, type := "uint8", isArray := true, arrayUpperBound := some bound }

/-- A 25-byte framed record with the variant bit set (`size_and_variant =
0x88000019`: variant 1, size 25) and a single `uint8` payload byte 42. -/
def bufVariant : List Nat :=
  [0x54, 0x4E, 0x44, 0x56, 0x19, 0, 0, 0x88,
   1, 0, 0, 0, 0, 0, 0, 0, 0, 0, 0, 0, 0, 0, 0, 0, 42]

/-- The record `deserializeMessage` produces from `bufVariant`. -/
def recVariant : CbufMessage :=
  { typeName := "m", size := 25, variant := some 1, hashValue := 1, timestamp := 0,
    message := [("x", .vInt 42)] }

/-- What `serializeMessage` emits for `recVariant`: the size word is
`(1 <<< 27) ||| 25 = 0x08000019` — bit 31 is gone. -/
def bufVariantReserialized : List Nat :=
  [0x54, 0x4E, 0x44, 0x56, 0x19, 0, 0, 0x08,
   1, 0, 0, 0, 0, 0, 0, 0, 0, 0, 0, 0, 0, 0, 0, 0, 42]

/-- An empty (zero-field) non-naked struct. -/
def emptyStructDef : MsgDef := { name := "e", hashValue := 2, definitions := [] }

/-- A struct with a single dynamic string array field `q`. -/
def strArrayStructDef : MsgDef :=
  { name := "q", hashValue := 4, definitions := [{ name := "q", type := "string", isArray := true }] }

/-- A message giving `q` the one-element string array `["a"]`. -/
def strArrayMessage : CbufMessage :=
  { hashValue := 4, timestamp := 0, message := [("q", .vArr [.vStr [97]])] }

/-- A 33-byte framed record for `strArrayStructDef` whose wire content is
`q = ["a"]` (count 1, then the length-prefixed string "a"). -/
def bufStrArray : List Nat :=
  [0x54, 0x4E, 0x44, 0x56, 33, 0, 0, 0,
   4, 0, 0, 0, 0, 0, 0, 0, 0, 0, 0, 0, 0, 0, 0, 0,
   1, 0, 0, 0, 1, 0, 0, 0, 97]

/-- A struct whose only field is a compact `uint8` array with upper bound 1. -/
def compactStructDef : MsgDef :=
  { name := "c", hashValue := 5, definitions := [compactU8Field "p" 1] }

/-- A 30-byte framed record for `compactStructDef` carrying a wire count of
2 — larger than the declared upper bound 1. -/
def bufCompactOverflow : List Nat :=
  [0x54, 0x4E, 0x44, 0x56, 30, 0, 0, 0,
   5, 0, 0, 0, 0, 0, 0, 0, 0, 0, 0, 0, 0, 0, 0, 0,
   2, 0, 0, 0, 7, 9]

/-- A struct whose only field is a dynamic string `l`. -/
def dynStringStructDef : MsgDef :=
  { name := "s", hashValue := 6, definitions := [{ name := "l", type := "string" }] }

/-- A 31-byte framed record for `dynStringStructDef` whose string field has
wire length 3 and bytes `"a\0b"` (an interior NUL). -/
def bufNulString : List Nat :=
  [0x54, 0x4E, 0x44, 0x56, 31, 0, 0, 0,
   6, 0, 0, 0, 0, 0, 0, 0, 0, 0, 0, 0, 0, 0, 0, 0,
   3, 0, 0, 0, 97, 0, 98]

/-- A nested non-naked struct with one `uint8` field. -/
def innerStructDef : MsgDef :=
  { name := "inner", hashValue := 7, definitions := [{ name := "x", type := "uint8" }] }

/-- A struct with a single complex field of type `inner`. -/
def outerStructDef : MsgDef :=
  { name := "outer", hashValue := 8,
    definitions := [{ name := "f", type := "inner", isComplex := true }] }

/-- The schema map for the nested example. -/
def nestedSchemaMap : SchemaMap := [("inner", innerStructDef)]

/-- The hash map for the nested example. -/
def nestedHashMap : HashMap := [(7, innerStructDef), (8, outerStructDef)]

/-- The outer message whose nested payload byte is `v`. -/
def nestedMessage (v : Nat) : CbufMessage :=
  { hashValue := 8, timestamp := 0, message := [("f", .vObj [("x", .vInt v)])] }

/-- A descriptor that a schema could legitimately register under the
metadata hash value; its name differs from the built-in's. -/
def customMetaDef : MsgDef :=
  { name := "custom::other", hashValue := 0xbe6738d544ab72c6,
    definitions := [{ name := "y", type := "uint8" }] }

/-- A 40-byte framed record whose header hash is the metadata hash and whose
payload parses as a `cbufmsg::metadata` body (u64 plus two empty strings). -/
def bufMetaHash : List Nat :=
  [0x54, 0x4E, 0x44, 0x56, 40, 0, 0, 0,
   0xC6, 0x72, 0xAB, 0x44, 0xD5, 0x38, 0x67, 0xBE,
   0, 0, 0, 0, 0, 0, 0, 0,
   9, 9, 9, 9, 9, 9, 9, 9, 0, 0, 0, 0, 0, 0, 0, 0]

/-- Two distinct descriptors sharing the hash value 7. -/
def dupHashDef1 : MsgDef := { name := "first", hashValue := 7, definitions := [] }

/-- Second descriptor with the same hash as `dupHashDef1`. -/
def dupHashDef2 : MsgDef :=
  { name := "second", hashValue := 7, definitions := [{ name := "z", type := "uint8" }] }

/-- An input message for `emptyStructDef` carrying `variant = 1`. -/
def recEmptyVariant : CbufMessage :=
  { typeName := "e", variant := some 1, hashValue := 2, timestamp := 0, message := [] }

/-- What `serializeMessage` emits for `recEmptyVariant`: the size word is
`(1 <<< 27) ||| 24 = 0x08000018`, with bit 31 clear. -/
def bufEmptyVariant : List Nat :=
  [0x54, 0x4E, 0x44, 0x56, 0x18, 0, 0, 0x08,
   2, 0, 0, 0, 0, 0, 0, 0, 0, 0, 0, 0, 0, 0, 0, 0]

/-- A message for `scalarStructDef "uint8"` whose field `x` is missing. -/
def msgMissingU8 : CbufMessage := { hashValue := 1, timestamp := 0, message := [] }

/-- What `serializeMessage` emits for `nestedMessage 42`: the nested record
at offset 24 has its magic clobbered by the payload byte 42, and its size
word (offset 28) is 25 = 24 + 1. -/
def bufNested42 : List Nat :=
  [0x54, 0x4E, 0x44, 0x56, 49, 0, 0, 0,
   8, 0, 0, 0, 0, 0, 0, 0, 0, 0, 0, 0, 0, 0, 0, 0,
   42, 0x4E, 0x44, 0x56, 25, 0, 0, 0,
   7, 0, 0, 0, 0, 0, 0, 0, 0, 0, 0, 0, 0, 0, 0, 0, 0]

/-- Wire width of the non-bigint integer scalar types. -/
def intWidth : String → Nat
  | "bool" => 1
  | "uint8" => 1
  | "int8" => 1
  | "uint16" => 2
  | "int16" => 2
  | "uint32" => 4
  | "int32" => 4
  | _ => 0


/-- A 40-byte framed record like `bufMetaHash` but with header hash 5,
which is neither the metadata hash nor present in any map used below. -/
def bufUnknownHash : List Nat :=
  [0x54, 0x4E, 0x44, 0x56, 40, 0, 0, 0,
   5, 0, 0, 0, 0, 0, 0, 0,
   0, 0, 0, 0, 0, 0, 0, 0,
   9, 9, 9, 9, 9, 9, 9, 9, 0, 0, 0, 0, 0, 0, 0, 0]

/-- The record `deserializeMessage` produces from `bufMetaHash`. -/
def metaRecord : CbufMessage :=
  { typeName := "cbufmsg::metadata", size := 40, variant := some 0,
    hashValue := 0xbe6738d544ab72c6, timestamp := 0,
    message := [("msg_hash", .vBig 651061555542690057),
                ("msg_name", .vStr []), ("msg_meta", .vStr [])] }

/-- A variant-free message for `emptyStructDef`. -/
def msgEmptyPlain : CbufMessage := { hashValue := 2, timestamp := 0, message := [] }

/-- What `serializeMessage` emits for `msgEmptyPlain`: the bare header. -/
def bufEmptyPlain : List Nat :=
  [0x54, 0x4E, 0x44, 0x56, 24, 0, 0, 0,
   2, 0, 0, 0, 0, 0, 0, 0, 0, 0, 0, 0, 0, 0, 0, 0]

/-! ## Claim theorems -/

/-- C1 (code bug): deserializing the valid framed buffer `bufVariant`
(variant bit set, variant 1, size 25) succeeds, but serializing the
resulting record does not reproduce the original bytes: the size word is
re-encoded as `variant <<< 27 ||| size = 0x08000019` without bit 31, so the
output differs from the input at byte 7 — and the serializer's own output
is then rejected by the deserializer, whose size field now reads
`0x08000019`. -/
theorem c1_roundtrip_fails_on_variant_record :
    deserializeMessage 10 [] [(1, scalarStructDef "uint8")] (ofBytes bufVariant) 0 =
      .ok recVariant ∧
    serializeMessage 10 [] [(1, scalarStructDef "uint8")] recVariant =
      .ok bufVariantReserialized ∧
    bufVariantReserialized ≠ bufVariant ∧
    deserializeMessage 10 [] [(1, scalarStructDef "uint8")] (ofBytes bufVariantReserialized) 0 =
      .error (.sizeExceedsBuffer 0x08000019 25) :=
  ⟨rfl, rfl, by decide, rfl⟩

/-- C2 (code bug): with `message.variant = 1` provided, `serializeMessage`
writes the `size_and_variant` word as `variant <<< 27 ||| size =
0x08000018`, whose bit 31 is NOT set (the claim and the format require the
top bit); consequently the deserializer cannot parse the serializer's own
output — it reads `0x08000018` as a size. -/
theorem c2_variant_word_missing_top_bit :
    serializeMessage 10 [] [(2, emptyStructDef)] recEmptyVariant = .ok bufEmptyVariant ∧
    leNat (sliceBytes bufEmptyVariant 4 4) = 0x08000018 ∧
    Nat.testBit 0x08000018 31 = false ∧
    deserializeMessage 10 [] [(2, emptyStructDef)] (ofBytes bufEmptyVariant) 0 =
      .error (.sizeExceedsBuffer 0x08000018 24) :=
  ⟨rfl, rfl, by decide, rfl⟩

/-- C3 (counterexample): a compact `uint8` array with `arrayUpperBound = 1`
and a wire count of 2 is deserialized without any `CompactOverflow`
failure — the claim requires the decode to fail whenever the count exceeds
the bound. -/
theorem c3_compact_overflow_counterexample :
    deserializeMessage 10 [] [(5, compactStructDef)] (ofBytes bufCompactOverflow) 0 =
      .ok { typeName := "c", size := 30, variant := some 0, hashValue := 5, timestamp := 0,
            message := [("p", .vTyped [.vInt 7, .vInt 9])] } ∧
    (compactU8Field "p" 1).arrayUpperBound = some 1 ∧ 1 < 2 :=
  ⟨rfl, rfl, by decide⟩

/-- C4 (counterexample): the field `x` of the descriptor is absent from the
input message, yet `serializeMessage` succeeds, zero-filling the field's
wire byte — the claim requires serialization to fail for every missing
field. -/
theorem c4_missing_field_counterexample :
    serializeMessage 10 [] [(1, scalarStructDef "uint8")] msgMissingU8 =
      .ok [0x54, 0x4E, 0x44, 0x56, 25, 0, 0, 0,
           1, 0, 0, 0, 0, 0, 0, 0, 0, 0, 0, 0, 0, 0, 0, 0, 0] ∧
    mapGet msgMissingU8.message "x" = none :=
  ⟨rfl, rfl⟩

/-- C5 (counterexample): a dynamic string field with wire length 3 and bytes
`"a\0b"` decodes to the value `"a"`, not to the UTF-8 decoding of all 3
bytes — the interior NUL cuts the value short, contradicting the claim. -/
theorem c5_interior_nul_counterexample :
    deserializeMessage 10 [] [(6, dynStringStructDef)] (ofBytes bufNulString) 0 =
      .ok { typeName := "s", size := 31, variant := some 0, hashValue := 6, timestamp := 0,
            message := [("l", .vStr [97])] } ∧
    decodeUtf8 [97, 0, 98] = [97, 0, 98] ∧ [97] ≠ [97, 0, 98] :=
  ⟨rfl, rfl, by decide⟩

/-- C6 (counterexample): the hash map maps the metadata hash to the
descriptor `custom::other`, yet `deserializeMessage` decodes a record with
that hash against the built-in `cbufmsg::metadata` descriptor — the
built-in takes precedence over the map, contrary to the claim. -/
theorem c6_metadata_precedence_counterexample :
    deserializeMessage 10 [] [(0xbe6738d544ab72c6, customMetaDef)] (ofBytes bufMetaHash) 0 =
      .ok { typeName := "cbufmsg::metadata", size := 40, variant := some 0,
            hashValue := 0xbe6738d544ab72c6, timestamp := 0,
            message := [("msg_hash", .vBig 651061555542690057),
                        ("msg_name", .vStr []), ("msg_meta", .vStr [])] } ∧
    mapGet [((0xbe6738d544ab72c6 : Nat), customMetaDef)] (0xbe6738d544ab72c6 : Nat) =
      some customMetaDef ∧
    customMetaDef.name ≠ "cbufmsg::metadata" :=
  ⟨rfl, rfl, by decide⟩

/-- C7 (code bug): computing the serialized size of a message whose string
array is `["a"]` throws a TypeError (the source's sizer passes the array
element where the message definition belongs and drops the message
argument), so `serializeMessage` fails on the same input — even though
the deserializer handles exactly this wire shape. -/
theorem c7_string_array_size_crashes :
    serializedMessageSize 10 [] [(4, strArrayStructDef)] strArrayMessage =
      .error (.typeError "definitions is not iterable") ∧
    serializeMessage 10 [] [(4, strArrayStructDef)] strArrayMessage =
      .error (.typeError "definitions is not iterable") ∧
    deserializeMessage 10 [] [(4, strArrayStructDef)] (ofBytes bufStrArray) 0 =
      .ok { typeName := "q", size := 33, variant := some 0, hashValue := 4, timestamp := 0,
            message := [("q", .vArr [.vStr [97]])] } :=
  ⟨rfl, rfl, rfl⟩

/-- C8 (counterexample): feeding two distinct descriptors with the same
hash value through `schemaMapToHashMap` yields a single-entry map holding
only the later descriptor; nothing reports an `AmbiguousHash` diagnostic
(the function has no error channel at all). -/
theorem c8_duplicate_hash_counterexample :
    schemaMapToHashMap [("first", dupHashDef1), ("second", dupHashDef2)] =
      [(7, dupHashDef2)] ∧
    dupHashDef1 ≠ dupHashDef2 :=
  ⟨rfl, by decide⟩

/-- C10 (counterexample): serializing a message with a nested non-naked
`inner` field writes the nested record's size word as 24 + payload (25
here, not 16 + 1 = 17 as the claim states), and the nested payload is then
written at the start of the nested record, clobbering the magic byte
(buffer byte 24 is the payload 42, not 0x54). -/
theorem c10_nested_header_counterexample :
    serializeMessage 10 nestedSchemaMap nestedHashMap (nestedMessage 42) = .ok bufNested42 ∧
    sliceBytes bufNested42 28 4 = leBytes 4 25 ∧ (25 : Nat) ≠ 16 + 1 ∧
    bufNested42.getD 24 0 = 42 ∧ (42 : Nat) ≠ 0x54 :=
  ⟨rfl, rfl, by decide, rfl, by decide⟩



theorem mapGet_cons (k' : Nat) (v' : MsgDef) (rest : HashMap) (h : Nat) :
    mapGet ((k', v') :: rest) h = if k' = h then some v' else mapGet rest h := by
  by_cases hk : k' = h
  · rw [mapGet, List.find?_cons_of_pos _ (by simp [hk])]
    simp [hk]
  · rw [mapGet, List.find?_cons_of_neg _ (by simp [hk])]
    simp [hk, mapGet]

theorem mapGet_mapSet (m : HashMap) (k : Nat) (v : MsgDef) (h : Nat) :
    mapGet (mapSet m k v) h = if k = h then some v else mapGet m h := by
  induction m with
  | nil => by_cases hk : k = h <;> simp [mapSet, mapGet_cons, mapGet, hk]
  | cons p rest ih =>
    obtain ⟨k', v'⟩ := p
    simp only [mapSet]
    by_cases hk : k' = k
    · subst hk
      by_cases h2 : k' = h <;> simp [mapGet_cons, h2]
    · have hb : (k' == k) = false := by simp [hk]
      rw [hb]
      by_cases h2 : k = h
      · subst h2
        have h1 : ¬ k' = k := hk
        simp [mapGet_cons, ih, h1]
      · by_cases h1 : k' = h <;> simp [mapGet_cons, ih, h1, h2]

theorem lookup_foldl_mapSet (l : List MsgDef) (acc : HashMap) (h : Nat) :
    mapGet (l.foldl (fun hm d => mapSet hm d.hashValue d) acc) h =
      (match l.reverse.find? (fun d => d.hashValue == h) with
        | some d => some d
        | none => mapGet acc h) := by
  induction l generalizing acc with
  | nil => simp
  | cons d rest ih =>
    simp only [List.foldl_cons, List.reverse_cons, List.find?_append]
    rw [ih]
    cases hr : rest.reverse.find? (fun d => d.hashValue == h) with
    | some x => simp [Option.orElse]
    | none =>
      by_cases hd : d.hashValue = h
      · simp [Option.orElse, List.find?, show (d.hashValue == h) = true by simp [hd],
          mapGet_mapSet, hd]
      · simp [Option.orElse, List.find?, show (d.hashValue == h) = false by simp [hd],
          mapGet_mapSet, hd]

/-- C8 (amended): the hash index silently keeps, for every hash value, only
the LAST descriptor (in schema-map iteration order) with that hash value;
duplicate hashes produce no diagnostic — `schemaMapToHashMap` has no error
channel at all. -/
theorem c8_hash_index_last_wins (schemaMap : SchemaMap) (h : Nat) :
    mapGet (schemaMapToHashMap schemaMap) h =
      (schemaMap.map Prod.snd).reverse.find? (fun d => d.hashValue == h) := by
  unfold schemaMapToHashMap
  have hm : schemaMap.foldl (fun hm p => mapSet hm p.2.hashValue p.2) ([] : HashMap) =
      (schemaMap.map Prod.snd).foldl (fun hm d => mapSet hm d.hashValue d) [] := by
    rw [List.foldl_map]
  rw [hm, lookup_foldl_mapSet]
  cases hf : (schemaMap.map Prod.snd).reverse.find? (fun d => d.hashValue == h) <;>
    simp [mapGet]

/-- C4 (amended): missing values for the non-bigint integer and bool scalar
types are zero-filled on the wire and serialization SUCCEEDS (the written
buffer is the header followed by zero bytes); only the bigint scalar types
(`uint64`/`int64`) make serialization fail, with a TypeError from the
`undefined`-to-BigInt coercion — not a typed `Encoding` error. -/
theorem c4_missing_scalar_zero_fill :
    (∀ t ∈ (["bool", "uint8", "int8", "uint16", "int16", "uint32", "int32"] : List String),
      serializeMessage 10 [] [(1, scalarStructDef t)] msgMissingU8 =
        .ok (leBytes 4 0x56444e54 ++ leBytes 4 (HEADER_SIZE + intWidth t) ++
             leBytes 8 1 ++ leBytes 8 0 ++ List.replicate (intWidth t) 0)) ∧
    serializeMessage 10 [] [(1, scalarStructDef "uint64")] msgMissingU8 =
      .error (.typeError "Cannot convert undefined to a BigInt") := by
  constructor
  · intro t ht
    fin_cases ht <;> rfl
  · rfl

/-- C4 witness: the amended claim applied at the `uint8` scalar type. -/
theorem c4_missing_scalar_zero_fill_witness :
    serializeMessage 10 [] [(1, scalarStructDef "uint8")] msgMissingU8 =
      .ok (leBytes 4 0x56444e54 ++ leBytes 4 (HEADER_SIZE + intWidth "uint8") ++
           leBytes 8 1 ++ leBytes 8 0 ++ List.replicate (intWidth "uint8") 0) :=
  c4_missing_scalar_zero_fill.1 "uint8" (by decide)

/-- C5 (amended): a dynamic string scalar reads a uint32 little-endian
length `L`, consumes `4 + L` bytes, and its value is the UTF-8 decoding of
the `L` bytes CUT AT THE FIRST NUL — dynamic strings are NUL-truncated
exactly like `short_string` values. -/
theorem c5_dynamic_string_nul_cut (view : DataViewM) (offset : Nat) (nm : String)
    (L : Nat) (hL : getUintLE view offset 4 = .ok L)
    (hB : view.byteOffset + offset + 4 + L ≤ view.buffer.length) :
    readBasicType view offset { name := nm, type := "string" } =
      .ok (4 + L, .vStr (takeNul (decodeUtf8
        (sliceBytes view.buffer (view.byteOffset + offset + 4) L)))) := by
  simp only [readBasicType, hL, bind, Except.bind, pure, Except.pure]
  rw [if_pos hB]

/-- C5 witness: the amended claim applied to the wire bytes `3 LE32` then
`"a\0b"`, yielding the value `"a"` after 7 consumed bytes. -/
theorem c5_dynamic_string_nul_cut_witness :
    readBasicType { buffer := [3, 0, 0, 0, 97, 0, 98], byteOffset := 0, byteLength := 7 } 0
        { name := "l", type := "string" } =
      .ok (4 + 3, .vStr (takeNul (decodeUtf8
        (sliceBytes [3, 0, 0, 0, 97, 0, 98] (0 + 0 + 4) 3)))) :=
  c5_dynamic_string_nul_cut
    { buffer := [3, 0, 0, 0, 97, 0, 98], byteOffset := 0, byteLength := 7 } 0 "l" 3
    (by rfl) (by decide)

theorem leNat_singleton (x : Nat) : leNat [x] = x := by simp [leNat]

theorem sliceBytes_map_range (buf : List Nat) (count : Nat) :
    ∀ bo, bo + count ≤ buf.length →
      (List.range count).map (fun i => leNat (sliceBytes buf (bo + i) 1)) =
        sliceBytes buf bo count := by
  induction count with
  | zero => intro bo h; simp [sliceBytes]
  | succ c ih =>
    intro bo h
    have h0 : bo < buf.length := by omega
    have hdrop : buf.drop bo = buf[bo] :: buf.drop (bo + 1) :=
      List.drop_eq_getElem_cons h0
    rw [List.range_succ_eq_map]
    simp only [List.map_cons, List.map_map]
    have hhead : leNat (sliceBytes buf (bo + 0) 1) = buf[bo] := by
      simp only [Nat.add_zero, sliceBytes, hdrop, List.take_cons, List.take_zero]
      exact leNat_singleton _
    have htail : (List.range c).map ((fun i => leNat (sliceBytes buf (bo + i) 1)) ∘ Nat.succ) =
        sliceBytes buf (bo + 1) c := by
      have := ih (bo + 1) (by omega)
      rw [← this]
      apply List.map_congr_left
      intro i _
      simp only [Function.comp_apply]
      have harg : bo + Nat.succ i = bo + 1 + i := by omega
      rw [harg]
    rw [hhead, htail]
    show _ = sliceBytes buf bo (c + 1)
    simp only [sliceBytes, hdrop, List.take_succ_cons]

/-- C3 (amended): for a compact array field (`arrayUpperBound`, no
`arrayLength`), deserialization reads the uint32 little-endian element
count from the wire and decodes exactly that many elements WITHOUT
checking the count against `arrayUpperBound` — here stated for a
single-field struct with a compact `uint8` array and a wire count
exceeding the bound; no `CompactOverflow` failure exists in the code. -/
theorem c3_compact_count_decoded_unchecked (fuel : Nat) (schemaMap : SchemaMap)
    (hashMap : HashMap) (mdName : String) (mdHash : Nat) (naked : Bool) (nm : String)
    (bound count : Nat) (view : DataViewM) (offset : Nat)
    (hC : getUintLE view (offset + 0) 4 = .ok count)
    (hB : view.byteOffset + offset + 4 + count ≤ view.buffer.length)
    (hOver : bound < count) :
    deserializeNakedMessage (fuel + 3) schemaMap hashMap
        { name := mdName, hashValue := mdHash, naked := naked,
          definitions := [compactU8Field nm bound] } view offset =
      .ok (4 + count,
        [(nm, .vTyped ((sliceBytes view.buffer (view.byteOffset + offset + 4) count).map
          (fun (b : Nat) => .vInt (b : Int))))]) := by
  clear hOver
  simp only [deserializeNakedMessage, desFields, desField, compactU8Field, hC,
    bind, Except.bind, pure, Except.pure, typedArrayElems, mapSet, Nat.zero_add,
    Nat.one_mul, Nat.mul_one]
  rw [if_pos hB]
  simp only [if_true]
  have hmap : (List.range count).map
      (fun i => CbufValue.vInt (leNat (sliceBytes view.buffer
        (view.byteOffset + offset + 4 + i) 1) : Int)) =
      (sliceBytes view.buffer (view.byteOffset + offset + 4) count).map
        (fun (b : Nat) => CbufValue.vInt (b : Int)) := by
    rw [← sliceBytes_map_range view.buffer count (view.byteOffset + offset + 4) hB,
      List.map_map]
    rfl
  rw [hmap]

/-- C3 witness: the amended claim applied at count 2, bound 1, over the
naked payload bytes `02 00 00 00 07 09`. -/
theorem c3_compact_count_decoded_unchecked_witness :
    deserializeNakedMessage (7 + 3) [] []
        { name := "c", hashValue := 5, naked := false,
          definitions := [compactU8Field "p" 1] }
        { buffer := [2, 0, 0, 0, 7, 9], byteOffset := 0, byteLength := 6 } 0 =
      .ok (4 + 2,
        [("p", .vTyped ((sliceBytes [2, 0, 0, 0, 7, 9] (0 + 0 + 4) 2).map
          (fun (b : Nat) => .vInt (b : Int))))]) :=
  c3_compact_count_decoded_unchecked 7 [] [] "c" 5 false "p" 1 2
    { buffer := [2, 0, 0, 0, 7, 9], byteOffset := 0, byteLength := 6 } 0
    (by rfl) (by decide) (by decide)



theorem natCast_eq_metaHash_iff (n : Nat) :
    ((n : Int) = 13719997278438781638) ↔ n = 13719997278438781638 := by omega

theorem c6_builtin_first_aux (fuel : Nat) (schemaMap : SchemaMap) (hashMap : HashMap)
    (data : ByteSource) (offset : Nat) (r : CbufMessage)
    (h : deserializeMessage fuel schemaMap hashMap data offset = .ok r)
    (hmeta : r.hashValue = (METADATA_DEFINITION.hashValue : Int)) :
    r.typeName = "cbufmsg::metadata" := by
  cases fuel with
  | zero => simp [deserializeMessage] at h
  | succ fuel =>
    simp only [deserializeMessage, bind, Except.bind, pure, Except.pure] at h
    iterate 20 (all_goals (try (split at h <;> try (cases h))))
    all_goals
      (try (simp_all [Nat.cast_inj, natCast_eq_metaHash_iff, METADATA_DEFINITION]))
    all_goals (try subst_vars)
    all_goals rfl

theorem c6_unknown_hash_aux (fuel : Nat) (schemaMap : SchemaMap) (hashMap : HashMap)
    (bs : List Nat) (offset : Nat) (h : Nat)
    (hOff : offset < bs.length)
    (hLen : 24 ≤ bs.length - offset)
    (hMagic : leNat (sliceBytes bs offset 4) = 0x56444e54)
    (hSize : (if Nat.testBit (leNat (sliceBytes bs (offset + 4) 4)) 31
        then leNat (sliceBytes bs (offset + 4) 4) &&& 0x07ffffff
        else leNat (sliceBytes bs (offset + 4) 4) &&& 0x7fffffff) ≤ bs.length - offset)
    (hHash : leNat (sliceBytes bs (offset + 8) 8) = h)
    (hMeta : h ≠ METADATA_DEFINITION.hashValue)
    (hMap : mapGet hashMap h = none) :
    deserializeMessage (fuel + 1) schemaMap hashMap (ofBytes bs) offset =
      .error (.hashNotFound h) := by
  simp only [deserializeMessage, ofBytes, getUintLE, bind, Except.bind, pure, Except.pure,
    Nat.zero_add, Nat.add_zero]
  rw [if_neg (by omega : ¬ offset ≥ bs.length)]
  rw [if_neg (by omega : ¬ offset > bs.length)]
  simp only []
  rw [if_neg (by omega : ¬ bs.length - offset < 24)]
  rw [if_pos (by omega : 0 + 4 ≤ bs.length - offset)]
  dsimp only
  simp only [Nat.zero_add, Nat.add_zero, hMagic]
  rw [if_neg (by decide : ¬ (0x56444e54 : Nat) ≠ 0x56444e54)]
  rw [if_pos (by omega : 4 + 4 ≤ bs.length - offset)]
  dsimp only
  rw [if_neg (Nat.not_lt.mpr hSize)]
  rw [if_pos (by omega : 8 + 8 ≤ bs.length - offset)]
  dsimp only
  simp only [hHash]
  rw [if_pos (by omega : 16 + 8 ≤ bs.length - offset)]
  dsimp only
  rw [if_neg hMeta]
  simp only [hMap]

/-- C6 (amended): the built-in metadata descriptor is checked FIRST: every
successful decode of a record whose header hash equals the metadata hash
`0xBE6738D544AB72C6` uses the built-in descriptor (its `typeName` is
`cbufmsg::metadata`), regardless of what the hash map contains under that
hash; the hash map is consulted only for other hash values, and the
unknown-hash failure is raised exactly when the hash differs from the
metadata hash and is absent from the hash map. -/
theorem c6_builtin_metadata_checked_first :
    (∀ (fuel : Nat) (schemaMap : SchemaMap) (hashMap : HashMap) (data : ByteSource)
      (offset : Nat) (r : CbufMessage),
      deserializeMessage fuel schemaMap hashMap data offset = .ok r →
      r.hashValue = (METADATA_DEFINITION.hashValue : Int) →
      r.typeName = "cbufmsg::metadata") ∧
    (∀ (fuel : Nat) (schemaMap : SchemaMap) (hashMap : HashMap) (bs : List Nat)
      (offset : Nat) (h : Nat),
      offset < bs.length →
      24 ≤ bs.length - offset →
      leNat (sliceBytes bs offset 4) = 0x56444e54 →
      (if Nat.testBit (leNat (sliceBytes bs (offset + 4) 4)) 31
        then leNat (sliceBytes bs (offset + 4) 4) &&& 0x07ffffff
        else leNat (sliceBytes bs (offset + 4) 4) &&& 0x7fffffff) ≤ bs.length - offset →
      leNat (sliceBytes bs (offset + 8) 8) = h →
      h ≠ METADATA_DEFINITION.hashValue →
      mapGet hashMap h = none →
      deserializeMessage (fuel + 1) schemaMap hashMap (ofBytes bs) offset =
        .error (.hashNotFound h)) :=
  ⟨c6_builtin_first_aux, c6_unknown_hash_aux⟩

/-- C6 witness: the amended claim applied to `bufMetaHash` decoded against a
hash map that binds the metadata hash to `custom::other` (the built-in still
wins), and to `bufUnknownHash` against empty maps (hash 5 → UnknownHash). -/
theorem c6_builtin_metadata_checked_first_witness :
    metaRecord.typeName = "cbufmsg::metadata" ∧
    deserializeMessage (9 + 1) [] [] (ofBytes bufUnknownHash) 0 =
      .error (.hashNotFound 5) :=
  ⟨c6_builtin_metadata_checked_first.1 10 [] [(0xbe6738d544ab72c6, customMetaDef)]
      (ofBytes bufMetaHash) 0 metaRecord (by rfl) (by decide),
   c6_builtin_metadata_checked_first.2 9 [] [] bufUnknownHash 0 5 (by decide) (by decide)
      (by rfl) (by decide) (by rfl) (by decide) (by rfl)⟩



theorem bind_ok {α β : Type} {x : Except CbufError α} {f : α → Except CbufError β} {b : β} :
    x >>= f = .ok b ↔ ∃ a, x = .ok a ∧ f a = .ok b := by
  cases x <;> simp [Bind.bind, Except.bind]

theorem writeLE_length (w : Nat) : ∀ (buf : List Nat) (i n : Nat),
    (writeLE buf i w n).length = buf.length := by
  induction w with
  | zero => intro buf i n; rfl
  | succ w ih => intro buf i n; simp [writeLE, ih]

theorem writeBytesAt_length (bytes : List Nat) : ∀ (buf : List Nat) (i : Nat),
    (writeBytesAt buf i bytes).length = buf.length := by
  induction bytes with
  | nil => intro buf i; rfl
  | cons b rest ih => intro buf i; simp [writeBytesAt, ih]

theorem setUintLE_ok {view view' : DataViewM} {o w n : Nat}
    (h : setUintLE view o w n = .ok view') : view'.buffer.length = view.buffer.length := by
  unfold setUintLE at h
  split at h
  · cases h; simp [writeLE_length]
  · cases h

theorem setIntLE_ok {view view' : DataViewM} {o w : Nat} {i : Int}
    (h : setIntLE view o w i = .ok view') : view'.buffer.length = view.buffer.length :=
  setUintLE_ok h

theorem setWindowBytes_ok {view view' : DataViewM} {byteOffset window : Nat}
    {bytes : List Nat} (h : setWindowBytes view byteOffset window bytes = .ok view') :
    view'.buffer.length = view.buffer.length := by
  unfold setWindowBytes at h
  split at h
  · split at h
    · cases h; simp [writeBytesAt_length]
    · cases h
  · cases h

theorem writeBasicField_ok {f : FieldDef} {value : Option CbufValue} {view : DataViewM}
    {curOff : Nat} {out : DataViewM × Nat}
    (h : writeBasicField f value view curOff = .ok out) :
    out.1.buffer.length = view.buffer.length := by
  unfold writeBasicField at h
  split at h
  all_goals (first
    | cases h
    | (rw [bind_ok] at h
       obtain ⟨c, _, h⟩ := h
       rw [bind_ok] at h
       obtain ⟨vw, hw, h⟩ := h
       cases h
       first
         | exact setIntLE_ok hw
         | exact setUintLE_ok hw)
    | (rw [bind_ok] at h
       obtain ⟨r1, hr1, h⟩ := h
       obtain ⟨v1, io1, len1⟩ := r1
       dsimp only at h
       rw [bind_ok] at h
       obtain ⟨v2, hv2, h⟩ := h
       cases h
       have e1 : v1.buffer.length = view.buffer.length := by
         split at hr1
         · cases hr1; rfl
         · rw [bind_ok] at hr1
           obtain ⟨vs, hvs, hp⟩ := hr1
           cases hp
           exact setUintLE_ok hvs
       have e2 : v2.buffer.length = v1.buffer.length := by
         split at hv2
         · cases hv2; rfl
         · split at hv2
           · split at hv2
             · exact setWindowBytes_ok hv2
             · cases hv2
           · cases hv2; rfl
       simpa [e2] using e1))

theorem serializer_preserves_length (fuel : Nat) :
    (∀ schemaMap hashMap msgdef message view offset out,
      serializeNakedMessage fuel schemaMap hashMap msgdef message view offset = .ok out →
      out.1.buffer.length = view.buffer.length) ∧
    (∀ schemaMap hashMap fields message view offset innerOffset out,
      serFields fuel schemaMap hashMap fields message view offset innerOffset = .ok out →
      out.1.buffer.length = view.buffer.length) ∧
    (∀ schemaMap hashMap field value view offset innerOffset i remaining out,
      serArrayItems fuel schemaMap hashMap field value view offset innerOffset i remaining
        = .ok out →
      out.1.buffer.length = view.buffer.length) ∧
    (∀ schemaMap hashMap field value view curOffset out,
      serializeNonArrayField fuel schemaMap hashMap field value view curOffset = .ok out →
      out.1.buffer.length = view.buffer.length) := by
  induction fuel with
  | zero =>
    refine ⟨?_, ?_, ?_, ?_⟩
    · intro _ _ _ _ _ _ _ h; cases h
    · intro _ _ _ _ _ _ _ _ h; cases h
    · intro _ _ _ _ _ _ _ _ _ _ h; cases h
    · intro _ _ _ _ _ _ _ h; cases h
  | succ fuel ih =>
    obtain ⟨ihN, ihF, ihA, ihS⟩ := ih
    refine ⟨?_, ?_, ?_, ?_⟩
    · intro sm hm md msg view off out h
      simp only [serializeNakedMessage] at h
      exact ihF _ _ _ _ _ _ _ _ h
    · intro sm hm fields msg view off io out h
      cases fields with
      | nil =>
        simp only [serFields] at h
        cases h
        rfl
      | cons f rest =>
        simp only [serFields] at h
        rw [bind_ok] at h
        obtain ⟨value, _, h⟩ := h
        by_cases hArr : f.isArray = true
        · rw [if_pos hArr] at h
          rw [bind_ok] at h
          obtain ⟨r1, hr1, h⟩ := h
          obtain ⟨v1, io1, len1⟩ := r1
          dsimp only at h
          rw [bind_ok] at h
          obtain ⟨r2, hr2, h⟩ := h
          obtain ⟨v2, io2⟩ := r2
          dsimp only at h
          have e3 := ihF _ _ _ _ _ _ _ _ h
          have e2 : v2.buffer.length = v1.buffer.length := by
            have := ihA _ _ _ _ _ _ _ _ _ _ hr2
            simpa using this
          have e1 : v1.buffer.length = view.buffer.length := by
            rcases hAL : f.arrayLength with _ | n
            · rw [hAL] at hr1
              dsimp only at hr1
              rw [bind_ok] at hr1
              obtain ⟨vs, hvs, hp⟩ := hr1
              cases hp
              exact setUintLE_ok hvs
            · rw [hAL] at hr1
              dsimp only at hr1
              cases hr1
              rfl
          omega
        · rw [if_neg hArr] at h
          rw [bind_ok] at h
          obtain ⟨r1, hr1, h⟩ := h
          obtain ⟨v1, w1⟩ := r1
          dsimp only at h
          have e2 := ihF _ _ _ _ _ _ _ _ h
          have e1 : v1.buffer.length = view.buffer.length := by
            have := ihS _ _ _ _ _ _ _ hr1
            simpa using this
          omega
    · intro sm hm f value view off io i rem out h
      cases rem with
      | zero =>
        simp only [serArrayItems] at h
        cases h
        rfl
      | succ rem =>
        simp only [serArrayItems] at h
        rw [bind_ok] at h
        obtain ⟨elem, _, h⟩ := h
        rw [bind_ok] at h
        obtain ⟨r1, hr1, h⟩ := h
        obtain ⟨v1, w1⟩ := r1
        dsimp only at h
        have e2 := ihA _ _ _ _ _ _ _ _ _ _ h
        have e1 : v1.buffer.length = view.buffer.length := by
          have := ihS _ _ _ _ _ _ _ hr1
          simpa using this
        omega
    · intro sm hm f value view curOff out h
      simp only [serializeNonArrayField] at h
      by_cases hc : f.isComplex = true
      · rw [if_pos hc] at h
        rw [bind_ok] at h
        obtain ⟨nd, _, h⟩ := h
        rw [bind_ok] at h
        obtain ⟨r1, hr1, h⟩ := h
        obtain ⟨v1, io1⟩ := r1
        dsimp only at h
        rw [bind_ok] at h
        obtain ⟨r2, hr2, h⟩ := h
        obtain ⟨v2, w2⟩ := r2
        dsimp only at h
        cases h
        dsimp only
        have e2 : v2.buffer.length = v1.buffer.length := by
          have := ihN _ _ _ _ _ _ _ hr2
          simpa using this
        have e1 : v1.buffer.length = view.buffer.length := by
          by_cases hn : nd.naked ≠ true
          · rw [if_pos hn] at hr1
            rw [bind_ok] at hr1
            obtain ⟨ns, _, hr1⟩ := hr1
            rw [bind_ok] at hr1
            obtain ⟨va, ha, hr1⟩ := hr1
            rw [bind_ok] at hr1
            obtain ⟨vb, hb, hr1⟩ := hr1
            rw [bind_ok] at hr1
            obtain ⟨vc, hcw, hr1⟩ := hr1
            rw [bind_ok] at hr1
            obtain ⟨vd, hd, hr1⟩ := hr1
            cases hr1
            have la := setUintLE_ok ha
            have lb := setUintLE_ok hb
            have lc := setUintLE_ok hcw
            have ld := setUintLE_ok hd
            omega
          · rw [if_neg hn] at hr1
            cases hr1
            rfl
        omega
      · rw [if_neg hc] at h
        exact writeBasicField_ok h



/-- C9: whenever `serializeMessage` succeeds, the length of the returned
buffer equals the value of `serializedMessageSize` on the same message
(the serializer allocates exactly that many bytes and every write
preserves the buffer's length). -/
theorem c9_size_agreement (fuel : Nat) (schemaMap : SchemaMap) (hashMap : HashMap)
    (message : CbufMessage) (out : List Nat)
    (h : serializeMessage fuel schemaMap hashMap message = .ok out) :
    serializedMessageSize fuel schemaMap hashMap message = .ok out.length := by
  unfold serializeMessage at h
  rw [bind_ok] at h
  obtain ⟨msgdef, hmd, h⟩ := h
  rw [bind_ok] at h
  obtain ⟨size, hsize, h⟩ := h
  rw [bind_ok] at h
  obtain ⟨v1, h1, h⟩ := h
  rw [bind_ok] at h
  obtain ⟨v2, h2, h⟩ := h
  rw [bind_ok] at h
  obtain ⟨v3, h3, h⟩ := h
  rw [bind_ok] at h
  obtain ⟨v4, h4, h⟩ := h
  rw [bind_ok] at h
  obtain ⟨r, hr, h⟩ := h
  obtain ⟨v5, w5⟩ := r
  dsimp only at h
  cases h
  have l5 : v5.buffer.length = v4.buffer.length := by
    have := (serializer_preserves_length fuel).1 _ _ _ _ _ _ _ hr
    simpa using this
  have l4 := setUintLE_ok h4
  have l3 := setIntLE_ok h3
  have l2 := setUintLE_ok h2
  have l1 := setUintLE_ok h1
  have l0 : v1.buffer.length = size := by
    simpa using l1
  have lfin : v5.buffer.length = size := by omega
  rw [hsize, lfin]

/-- C9 witness: the theorem applied to the concrete serialization of
`msgEmptyPlain`, whose output buffer is the 24-byte header. -/
theorem c9_size_agreement_witness :
    serializedMessageSize 10 [] [(2, emptyStructDef)] msgEmptyPlain =
      .ok bufEmptyPlain.length :=
  c9_size_agreement 10 [] [(2, emptyStructDef)] msgEmptyPlain bufEmptyPlain (by rfl)



/-- C10 (amended): for a nested non-naked complex scalar field, the
serializer writes a nested header whose size word is `HEADER_SIZE +
payload = 24 + payload` (not 16 + payload), the nested descriptor's
hashValue, and a timestamp of exactly 0.0 regardless of the input — but it
then writes the nested payload at the START of the nested record (the
source passes `curOffset` instead of `curOffset + innerOffset` to
`serializeNakedMessage`), overwriting the header's first bytes: for every
payload byte `v` the emitted record begins with `v` in place of the
magic's first byte, followed by the surviving header remainder, and the
payload's own slot at the end is left unwritten. -/
theorem c10_nested_header_layout (v : Nat) (hv : v < 256) :
    serializeNonArrayField 9 nestedSchemaMap nestedHashMap
        { name := "f", type := "inner", isComplex := true }
        (some (.vObj [("x", .vInt v)]))
        { buffer := List.replicate 25 0, byteOffset := 0, byteLength := 25 } 0 =
      .ok (⟨v :: ([0x4E, 0x44, 0x56] ++ leBytes 4 (HEADER_SIZE + 1) ++
          leBytes 8 innerStructDef.hashValue ++ leBytes 8 0 ++ [0]), 0, 25⟩,
        HEADER_SIZE + 1) := by
  have base : serializeNonArrayField 9 nestedSchemaMap nestedHashMap
      { name := "f", type := "inner", isComplex := true }
      (some (.vObj [("x", .vInt v)]))
      { buffer := List.replicate 25 0, byteOffset := 0, byteLength := 25 } 0 =
      .ok (⟨((((v : Int) % ((2 : Int) ^ (8 * 1))).toNat % 256) ::
        [0x4E, 0x44, 0x56, 25, 0, 0, 0, 7, 0, 0, 0, 0, 0, 0, 0, 0,
         0, 0, 0, 0, 0, 0, 0, 0]), 0, 25⟩, 25) := rfl
  have he : (((v : Int) % ((2 : Int) ^ (8 * 1))).toNat % 256) = v := by omega
  rw [he] at base
  rw [base]
  simp [leBytes, HEADER_SIZE, innerStructDef]

/-- C10 witness: the amended layout at payload byte 42. -/
theorem c10_nested_header_layout_witness :
    serializeNonArrayField 9 nestedSchemaMap nestedHashMap
        { name := "f", type := "inner", isComplex := true }
        (some (.vObj [("x", .vInt 42)]))
        { buffer := List.replicate 25 0, byteOffset := 0, byteLength := 25 } 0 =
      .ok (⟨42 :: ([0x4E, 0x44, 0x56] ++ leBytes 4 (HEADER_SIZE + 1) ++
          leBytes 8 innerStructDef.hashValue ++ leBytes 8 0 ++ [0]), 0, 25⟩,
        HEADER_SIZE + 1) :=
  c10_nested_header_layout 42 (by decide)


end WasmCbuf
